import Mathlib

/-
Shallow embedding of the cirtap incremental mirror engine
(src/cirtap/mirror.py, src/cirtap/common.py, src/cirtap/core.py).

Python dictionaries keyed by filename (insertion-ordered, unique keys) are
modelled as association lists `List (String × String)`; `Option` models a
raised exception on the fallible paths (a `none` result is a raise).
-/

/-- A timestamps dictionary `{fname: {"ftp_mdtm": timestamp}}` in insertion
order, as produced by `get_remote_dir_timestamps` / `get_local_info`. -/
abbrev TimestampMap := List (String × String)

/-- Lexicographic code-point comparison of character lists, mirroring how
Python compares `str` values (used by `sorted`). -/
def charListLe : List Char → List Char → Bool
  | [], _ => true
  | _ :: _, [] => false
  | a :: as, b :: bs =>
    if a.val < b.val then true
    else if b.val < a.val then false
    else charListLe as bs

/-- Python `a <= b` on strings: code-point lexicographic order. -/
def strLe (a b : String) : Bool := charListLe a.data b.data

/-- Python `sorted` on a list of strings (stable, ascending). -/
def sortStrings (l : List String) : List String :=
  List.insertionSort (fun a b : String => strLe a b) l

/-- The loop body of `common.filter_files_on_mdtm` when a local manifest is
present: iterate the local entries in order; `remote_tstamps[f]` raises
`KeyError` (modelled by `none`) when a local filename is absent from the
remote listing; otherwise append `f` exactly when the timestamps differ. -/
def filterGo (remote : TimestampMap) : TimestampMap → Option (List String)
  | [] => some []
  | (f, t) :: rest =>
    match List.lookup f remote with
    | none => none
    | some t2 =>
      match filterGo remote rest with
      | none => none
      | some l => some (if t ≠ t2 then f :: l else l)

/-- `common.filter_files_on_mdtm(remote_tstamps, local_tstamps)`: with no
local manifest every remote filename is a target; otherwise compare
timestamps entry by entry (`filterGo`). -/
def filter_files_on_mdtm (remote : TimestampMap) :
    Option TimestampMap → Option (List String)
  | none => some (remote.map Prod.fst)
  | some loc => filterGo remote loc

/-- `common.get_missing_files(a_dir, files_list)`: the filenames of
`files` that are not present in the directory listing `disk`. -/
def get_missing_files (disk : List String) (files : List String) : List String :=
  files.filter (fun f => decide (f ∉ disk))

/-- The target list built inside `mirror.sync_single_dir`:
`targets = filter_files_on_mdtm(remote_info, local_info)` followed by
`targets.extend(missing_files)`.  `none` models the `KeyError` raised by
`filter_files_on_mdtm`. -/
def syncTargets (remote : TimestampMap) (loc : Option TimestampMap)
    (disk : List String) : Option (List String) :=
  match filter_files_on_mdtm remote loc with
  | none => none
  | some tgts => some (tgts ++ get_missing_files disk (remote.map Prod.fst))

/-- On-disk state of one entity directory: the filenames present on disk and
the contents of `ftp_info.tsv` (absent when the file does not exist). -/
structure DirState where
  disk : List String
  manifest : Option TimestampMap
deriving DecidableEq, Repr

/-- Writing one fetched file into the entity directory. -/
def addFile (disk : List String) (f : String) : List String :=
  if f ∈ disk then disk else disk ++ [f]

/-- `common.download_genome_targets`: write every target into the local
directory. -/
def downloadTargets (disk : List String) (targets : List String) : List String :=
  targets.foldl addFile disk

/-- Serialisation of `ftp_info.tsv` (`pandas.DataFrame.to_csv` with a tab
separator and index name `fname`): deterministic in the row list. -/
def manifestTSV (rows : TimestampMap) : String :=
  "fname\tftp_mdtm\n" ++ String.join (rows.map (fun r => r.1 ++ "\t" ++ r.2 ++ "\n"))

/-- One successful pass of the `try` block of `mirror.sync_single_dir` with
`write_info=True`: list the remote directory, compute targets, union in the
files missing from disk, download all targets, then overwrite
`ftp_info.tsv` with the listing just obtained.  Returns the new directory
state and the number of files fetched; `none` models the uncaught
`KeyError`. -/
def syncAttempt (remote : TimestampMap) (st : DirState) :
    Option (DirState × Nat) :=
  match syncTargets remote st.manifest st.disk with
  | none => none
  | some targets =>
      some ({ disk := downloadTargets st.disk targets, manifest := some remote },
            targets.length)

/-- What happens inside one iteration of the retry loop of
`mirror.sync_single_dir`. -/
inductive AttemptOutcome
  | success
  | ftpError
  | interrupt
  | otherError
deriving DecidableEq, Repr

/-- Observable side effects of `mirror.sync_single_dir`. -/
inductive SyncEvent
  | attemptStart (n : Nat)
  | sleep (secs : Nat)
  | rmtree
  | writeManifest
deriving DecidableEq, Repr

/-- How `mirror.sync_single_dir` terminates. -/
inductive SyncResult
  | returned (gid : String)
  | raisedFtp
  | raisedOther
deriving DecidableEq, Repr

/-- The retry loop `for attempt in range(1, retries + 1)` of
`mirror.sync_single_dir`.  `fuel` is the number of loop iterations left and
`attempt` the current value of the loop variable.  On an ftplib error the
code tests `attempt == retries + 1` (delete directory and re-raise),
otherwise it executes `attempt += 1` and sleeps `attempt * 60` seconds; a
`KeyboardInterrupt` deletes the directory and breaks; any other exception
re-raises.  Falling off the loop reaches `return genome_id`. -/
def syncLoop (outcome : Nat → AttemptOutcome) (retries : Nat) (gid : String) :
    Nat → Nat → List SyncEvent × SyncResult
  | 0, _ => ([], .returned gid)
  | fuel + 1, attempt =>
    match outcome attempt with
    | .success => ([.attemptStart attempt, .writeManifest], .returned gid)
    | .ftpError =>
      if attempt = retries + 1 then
        ([.attemptStart attempt, .rmtree], .raisedFtp)
      else
        let rest := syncLoop outcome retries gid fuel (attempt + 1)
        (.attemptStart attempt :: .sleep ((attempt + 1) * 60) :: rest.1, rest.2)
    | .interrupt => ([.attemptStart attempt, .rmtree], .returned gid)
    | .otherError => ([.attemptStart attempt], .raisedOther)

/-- `mirror.sync_single_dir(genomes_dir, genome_id, retries, write_info)`:
run the retry loop starting at `attempt = 1` with `retries` iterations,
driven by the per-attempt outcome oracle. -/
def sync_single_dir (outcome : Nat → AttemptOutcome) (retries : Nat)
    (gid : String) : List SyncEvent × SyncResult :=
  syncLoop outcome retries gid retries 1

/-- The genome ids a run collects from its workers: `mirror_genomes_dir`
appends every value returned by `sync_single_dir`. -/
def runResultIds (rs : List (List SyncEvent × SyncResult)) : List String :=
  rs.foldr (fun r acc => match r.2 with
    | .returned g => g :: acc
    | _ => acc) []

/-- `processed_genomes.union(set(finished_jobs))` in `core.mirror`,
as a membership-faithful list. -/
def union_processed (prior finished : List String) : List String :=
  prior ++ finished.filter (fun x => decide (x ∉ prior))

/-- First-occurrence deduplication, mirroring `pandas.Series.unique` on the
`genome_id` column (keeps file order). -/
def dedupGo (seen : List String) : List String → List String
  | [] => []
  | x :: xs => if x ∈ seen then dedupGo seen xs else x :: dedupGo (x :: seen) xs

/-- `common.genomes_from_summary`: the deduplicated genome ids of the
summary file, in order of first appearance. -/
def genomes_from_summary (summaryRows : List String) : List String :=
  dedupGo [] summaryRows

/-- `mirror.create_genome_jobs(genome_summary, genomes_dir, processed_genomes)`:
only when `processed_genomes` is truthy (non-empty) does the code filter out
processed ids and sort; otherwise the summary order is kept unsorted. -/
def create_genome_jobs (summaryRows : List String) (processed : List String) :
    List String :=
  let allGenomes := genomes_from_summary summaryRows
  if processed.isEmpty then allGenomes
  else sortStrings (allGenomes.filter (fun i => decide (i ∉ processed)))

/-- The job list `core.mirror` dispatches: `create_genome_jobs` always
receives `processed_genomes`, and when `skip_processed_genomes or resume`
is set the list is filtered against `processed_genomes` once more. -/
def mirror_job_list (summaryRows processed : List String)
    (skipProcessed : Bool) : List String :=
  let jobs := create_genome_jobs summaryRows processed
  if skipProcessed then jobs.filter (fun j => decide (j ∉ processed)) else jobs

/-- Modelled from the spec (for comparison with `mirror_job_list`): the job
list §4.6 describes, `sorted(summary_ids − ProcessedSet)` when
`skip_processed` is set, else `sorted(summary_ids)`. -/
def specJobList (summaryRows processed : List String)
    (skipProcessed : Bool) : List String :=
  if skipProcessed then
    sortStrings ((genomes_from_summary summaryRows).filter
      (fun i => decide (i ∉ processed)))
  else sortStrings (genomes_from_summary summaryRows)

/-- Modelled from the spec (for comparison with `syncTargets`): the
"changed" files of §4.3, `{f in local ∩ remote : local[f] != remote[f]}`. -/
def specChanged (remote loc : TimestampMap) : List String :=
  (loc.map Prod.fst).filter (fun f =>
    decide ((List.lookup f remote).isSome = true ∧
      List.lookup f loc ≠ List.lookup f remote))

/-- Modelled from the spec (for comparison with `syncTargets`): the
"remote-but-unrecorded-locally" files of §4.3,
`{f in remote : f not in local}`. -/
def specUnrecorded (remote loc : TimestampMap) : List String :=
  (remote.map Prod.fst).filter (fun f => decide (f ∉ loc.map Prod.fst))

/-- Observable side effects of `mirror.check_release_dir`. -/
inductive ReleaseEvent
  | archiveNotes
  | writeVersion (v : String)
  | fetchMd5 (f : String)
  | writeFile (f : String)
  | ftpError
deriving DecidableEq, Repr

/-- The per-file loop of `mirror.check_release_dir`: for every tracked
release file fetch the remote content and its md5 (`get_remote_file_md5`,
which can fail with a transport error, modelled by `remoteMd5 f = none`);
a file present locally is rewritten only when the checksums differ, a file
missing locally is always written; each write sets `check_genomes`. -/
def releaseLoop (present : String → Bool) (localMd5 : String → String)
    (remoteMd5 : String → Option String) :
    List String → Bool → List ReleaseEvent × Option Bool
  | [], cg => ([], some cg)
  | f :: fs, cg =>
    match remoteMd5 f with
    | none => ([.fetchMd5 f, .ftpError], none)
    | some m =>
      if present f then
        if m ≠ localMd5 f then
          let rest := releaseLoop present localMd5 remoteMd5 fs true
          (.fetchMd5 f :: .writeFile f :: rest.1, rest.2)
        else
          let rest := releaseLoop present localMd5 remoteMd5 fs cg
          (.fetchMd5 f :: rest.1, rest.2)
      else
        let rest := releaseLoop present localMd5 remoteMd5 fs true
        (.fetchMd5 f :: .writeFile f :: rest.1, rest.2)

/-- `mirror.check_release_dir(release_dir, archive)`: archive the previous
snapshot when at least one tracked file is present and archiving is
requested, then write the `VERSION` marker to the remote token, then run
the checksum loop over the tracked files with `check_genomes = False`.
Returns the event trace and `some check_genomes` (or `none` when the loop
raised a transport error). -/
def check_release_dir (files : List String) (present : String → Bool)
    (localMd5 : String → String) (remoteMd5 : String → Option String)
    (remoteVersion : String) (archive : Bool) :
    List ReleaseEvent × Option Bool :=
  let pre := if archive && files.any (fun f => present f) then
    [ReleaseEvent.archiveNotes] else []
  let loop := releaseLoop present localMd5 remoteMd5 files false
  (pre ++ ReleaseEvent.writeVersion remoteVersion :: loop.1, loop.2)

/-! Helper lemmas about association-list lookup and the sync primitives. -/

theorem lookup_eq_none_of_not_mem {f : String} {l : TimestampMap}
    (h : f ∉ l.map Prod.fst) : List.lookup f l = none := by
  induction l with
  | nil => rfl
  | cons p rest ih =>
    obtain ⟨g, t⟩ := p
    simp only [List.map_cons, List.mem_cons] at h
    push_neg at h
    simp [List.lookup, beq_false_of_ne h.1, ih h.2]

theorem lookup_isSome_of_mem {f : String} {l : TimestampMap}
    (h : f ∈ l.map Prod.fst) : ∃ t, List.lookup f l = some t := by
  induction l with
  | nil => simp at h
  | cons p rest ih =>
    obtain ⟨g, t⟩ := p
    by_cases hfg : f = g
    · subst hfg; exact ⟨t, by simp [List.lookup]⟩
    · simp only [List.map_cons, List.mem_cons] at h
      rcases h with h | h
      · exact absurd h hfg
      · obtain ⟨t', ht'⟩ := ih h
        exact ⟨t', by simp [List.lookup, beq_false_of_ne hfg, ht']⟩

theorem mem_of_lookup_eq_some {f t : String} {l : TimestampMap}
    (h : List.lookup f l = some t) : f ∈ l.map Prod.fst := by
  by_contra hmem
  rw [lookup_eq_none_of_not_mem hmem] at h
  exact Option.noConfusion h

theorem lookup_of_mem_nodup {f t : String} {l : TimestampMap}
    (hn : (l.map Prod.fst).Nodup) (h : (f, t) ∈ l) : List.lookup f l = some t := by
  induction l with
  | nil => simp at h
  | cons p rest ih =>
    obtain ⟨g, t'⟩ := p
    simp only [List.map_cons, List.nodup_cons] at hn
    rcases List.mem_cons.mp h with h | h
    · injection h with h1 h2
      subst h1; subst h2
      simp [List.lookup]
    · have hfg : f ≠ g := fun he =>
        hn.1 (he ▸ List.mem_map.mpr ⟨(f, t), h, rfl⟩)
      simp [List.lookup, beq_false_of_ne hfg, ih hn.2 h]

theorem mem_addFile {x f : String} {d : List String} :
    x ∈ addFile d f ↔ x ∈ d ∨ x = f := by
  unfold addFile
  split <;> rename_i hmem <;> simp [List.mem_append]
  intro hx
  subst hx
  exact hmem

theorem mem_downloadTargets {x : String} {ts : List String} :
    ∀ {d : List String}, x ∈ downloadTargets d ts ↔ x ∈ d ∨ x ∈ ts := by
  induction ts with
  | nil => simp [downloadTargets]
  | cons f fs ih =>
    intro d
    show x ∈ downloadTargets (addFile d f) fs ↔ _
    rw [ih, mem_addFile]
    simp [List.mem_cons]
    tauto

theorem mem_sortStrings {x : String} {l : List String} :
    x ∈ sortStrings l ↔ x ∈ l :=
  List.mem_insertionSort _

/-- Claim C9: for every remote listing, when no local manifest exists
(`local_tstamps is None`), `filter_files_on_mdtm` returns exactly the full
list of remote filenames as targets. -/
theorem filter_no_local_full_remote (remote : TimestampMap) :
    filter_files_on_mdtm remote none = some (remote.map Prod.fst) := rfl

/-- Witness for C9 at a concrete listing. -/
theorem filter_no_local_full_remote_witness :
    filter_files_on_mdtm [("a.fna", "20200112235902"), ("b.faa", "20200113000000")]
      none = some ["a.fna", "b.faa"] :=
  filter_no_local_full_remote
    [("a.fna", "20200112235902"), ("b.faa", "20200113000000")]

/-- Claim C8: the run-end persist step of `core.mirror` writes
`processed_genomes.union(set(finished_jobs))`: membership of the persisted
set is exactly the union of the prior set and the finished ids, and no
prior id is removed. -/
theorem processed_set_rewrite_union (prior finished : List String) :
    (∀ x, x ∈ union_processed prior finished ↔ x ∈ prior ∨ x ∈ finished) ∧
      ∀ x ∈ prior, x ∈ union_processed prior finished := by
  constructor
  · intro x
    simp only [union_processed, List.mem_append, List.mem_filter,
      decide_eq_true_eq]
    by_cases hx : x ∈ prior <;> simp [hx]
  · intro x hx
    exact List.mem_append.mpr (Or.inl hx)

/-- Witness for C8: the scheduler scenario of §8. -/
theorem processed_set_rewrite_union_witness :
    (∀ x, x ∈ union_processed ["10.2"] ["10.1", "10.3"] ↔
      x ∈ ["10.2"] ∨ x ∈ ["10.1", "10.3"]) ∧
      ∀ x ∈ ["10.2"], x ∈ union_processed ["10.2"] ["10.1", "10.3"] :=
  processed_set_rewrite_union ["10.2"] ["10.1", "10.3"]

/-- Claim C1 (code bug): with every remote call failing, the retry loop of
`sync_single_dir` makes its 3 attempts but the guard `attempt == retries + 1`
is never true inside `range(1, retries + 1)`, so the code sleeps
120 s, 180 s and 240 s (the `attempt += 1` precedes `time.sleep(attempt * 60)`),
never deletes the entity directory, never re-raises, and falls through to
`return genome_id` as if the sync had succeeded. -/
theorem sync_retry_exhaustion_no_cleanup (gid : String) :
    sync_single_dir (fun _ => .ftpError) 3 gid =
      ([.attemptStart 1, .sleep 120, .attemptStart 2, .sleep 180,
        .attemptStart 3, .sleep 240], .returned gid) := rfl

/-- Witness for C1 at a concrete genome id. -/
theorem sync_retry_exhaustion_no_cleanup_witness :
    sync_single_dir (fun _ => .ftpError) 3 "100.11" =
      ([.attemptStart 1, .sleep 120, .attemptStart 2, .sleep 180,
        .attemptStart 3, .sleep 240], .returned "100.11") :=
  sync_retry_exhaustion_no_cleanup "100.11"

/-- Claim C2 (code bug): a genome whose every attempt fails with an ftplib
error never writes its manifest, yet `sync_single_dir` returns the genome
id (see C1), `mirror_genomes_dir` collects it, and the run-end union in
`core.mirror` records it in the persisted processed set. -/
theorem failed_sync_recorded_in_processed_set (gid : String) (prior : List String) :
    SyncEvent.writeManifest ∉ (sync_single_dir (fun _ => .ftpError) 3 gid).1 ∧
      gid ∈ union_processed prior
        (runResultIds [sync_single_dir (fun _ => .ftpError) 3 gid]) := by
  rw [sync_single_dir]
  constructor
  · show SyncEvent.writeManifest ∉
      ([.attemptStart 1, .sleep 120, .attemptStart 2, .sleep 180,
        .attemptStart 3, .sleep 240] : List SyncEvent)
    decide
  · show gid ∈ union_processed prior (runResultIds [(_, SyncResult.returned gid)])
    simp only [union_processed, runResultIds, List.foldr, List.mem_append,
      List.mem_filter, List.mem_singleton, decide_eq_true_eq]
    by_cases hx : gid ∈ prior <;> simp [hx]

/-- Witness for C2 at a concrete genome id and prior set. -/
theorem failed_sync_recorded_in_processed_set_witness :
    SyncEvent.writeManifest ∉ (sync_single_dir (fun _ => .ftpError) 3 "100.11").1 ∧
      "100.11" ∈ union_processed ["10.2"]
        (runResultIds [sync_single_dir (fun _ => .ftpError) 3 "100.11"]) :=
  failed_sync_recorded_in_processed_set "100.11" ["10.2"]

/-- Counterexample for C4: a local manifest entry `a.fna` absent from the
remote listing makes `filter_files_on_mdtm` raise `KeyError` at
`remote_tstamps[f]` (modelled by `none`) instead of completing normally. -/
theorem removed_remote_file_counterexample :
    filter_files_on_mdtm [("b.faa", "T1")] (some [("a.fna", "T1")]) = none := by
  decide

/-- Claim C4 amended: for every local manifest containing a filename absent
from the remote listing, `filter_files_on_mdtm` raises `KeyError` (it does
not complete normally); the local copy is indeed never flagged or deleted,
but only because no target list is produced at all. -/
theorem removed_remote_file_raises (remote loc : TimestampMap) (f : String)
    (hmem : f ∈ loc.map Prod.fst) (hnot : f ∉ remote.map Prod.fst) :
    filter_files_on_mdtm remote (some loc) = none := by
  induction loc with
  | nil => simp at hmem
  | cons p rest ih =>
    obtain ⟨g, t⟩ := p
    show filterGo remote ((g, t) :: rest) = none
    by_cases hfg : f = g
    · subst hfg
      simp [filterGo, lookup_eq_none_of_not_mem hnot]
    · have hf : f ∈ rest.map Prod.fst := by
        simp only [List.map_cons, List.mem_cons] at hmem
        tauto
      have ih' : filterGo remote rest = none := ih hf
      cases hg : List.lookup g remote <;> simp [filterGo, hg, ih']

/-- Witness for the amended C4 at a concrete manifest and listing. -/
theorem removed_remote_file_raises_witness :
    filter_files_on_mdtm [("b.faa", "T1")]
      (some [("a.fna", "T1"), ("b.faa", "T1")]) = none :=
  removed_remote_file_raises [("b.faa", "T1")] [("a.fna", "T1"), ("b.faa", "T1")]
    "a.fna" (by decide) (by decide)

/-- Counterexample for C5: with `skip_processed` unset and a non-empty
processed set, the dispatched job list is still `sorted(summary − processed)`
(because `core.mirror` always hands `processed_genomes` to
`create_genome_jobs`), not `sorted(summary_ids)` as the claim states. -/
theorem job_list_counterexample :
    mirror_job_list ["10.1", "10.2", "10.3"] ["10.2"] false = ["10.1", "10.3"] ∧
      specJobList ["10.1", "10.2", "10.3"] ["10.2"] false =
        ["10.1", "10.2", "10.3"] ∧
      mirror_job_list ["10.1", "10.2", "10.3"] ["10.2"] false ≠
        specJobList ["10.1", "10.2", "10.3"] ["10.2"] false := by decide

/-- Claim C5 amended: the dispatched job list is
`sorted(summary_ids − ProcessedSet)` whenever the processed set is
non-empty, regardless of `skip_processed`; when the processed set is empty
it is the deduplicated summary ids in file order (not sorted), again
regardless of `skip_processed` (the second filter in `core.mirror` is
redundant). -/
theorem job_list_characterisation (summaryRows processed : List String)
    (skip : Bool) :
    mirror_job_list summaryRows processed skip =
      if processed.isEmpty then genomes_from_summary summaryRows
      else sortStrings ((genomes_from_summary summaryRows).filter
        (fun i => decide (i ∉ processed))) := by
  unfold mirror_job_list create_genome_jobs
  by_cases hp : processed.isEmpty = true
  · have hpe : processed = [] := by
      cases processed
      · rfl
      · simp [List.isEmpty] at hp
    subst hpe
    cases skip <;> simp [List.filter_eq_self]
  · simp only [hp, if_false, Bool.false_eq_true]
    cases skip
    · simp
    · simp only [if_true]
      refine List.filter_eq_self.mpr fun a ha => ?_
      have : a ∈ (genomes_from_summary summaryRows).filter
          (fun i => decide (i ∉ processed)) := mem_sortStrings.mp ha
      exact (List.mem_filter.mp this).2

/-- Witness for the amended C5 at a concrete unsorted summary. -/
theorem job_list_characterisation_witness :
    mirror_job_list ["10.3", "10.1"] [] true =
      (if ([] : List String).isEmpty then genomes_from_summary ["10.3", "10.1"]
       else sortStrings ((genomes_from_summary ["10.3", "10.1"]).filter
         (fun i => decide (i ∉ ([] : List String))))) :=
  job_list_characterisation ["10.3", "10.1"] [] true

theorem mem_specChanged_iff {remote loc : TimestampMap} {f : String} :
    f ∈ specChanged remote loc ↔
      ∃ t t2, List.lookup f loc = some t ∧
        List.lookup f remote = some t2 ∧ t ≠ t2 := by
  unfold specChanged
  rw [List.mem_filter]
  simp only [decide_eq_true_eq]
  constructor
  · rintro ⟨hmem, hsome, hne⟩
    obtain ⟨t, ht⟩ := lookup_isSome_of_mem hmem
    obtain ⟨t2, ht2⟩ := Option.isSome_iff_exists.mp hsome
    refine ⟨t, t2, ht, ht2, ?_⟩
    rintro rfl
    rw [ht, ht2] at hne
    exact hne rfl
  · rintro ⟨t, t2, ht, ht2, hne⟩
    refine ⟨mem_of_lookup_eq_some ht, by simp [ht2], ?_⟩
    rw [ht, ht2]
    simpa using hne

theorem filterGo_mem_characterisation (remote : TimestampMap) :
    ∀ loc : TimestampMap, (loc.map Prod.fst).Nodup →
      (∀ f ∈ loc.map Prod.fst, f ∈ remote.map Prod.fst) →
      ∃ l, filterGo remote loc = some l ∧
        ∀ f, f ∈ l ↔ ∃ t t2, List.lookup f loc = some t ∧
          List.lookup f remote = some t2 ∧ t ≠ t2 := by
  intro loc
  induction loc with
  | nil => exact fun _ _ => ⟨[], rfl, by simp⟩
  | cons p rest ih =>
    intro hl hsub
    obtain ⟨g, t⟩ := p
    simp only [List.map_cons, List.nodup_cons] at hl
    have hg : g ∈ remote.map Prod.fst := hsub g (by simp)
    obtain ⟨t2, ht2⟩ := lookup_isSome_of_mem hg
    obtain ⟨l', hl', hiff⟩ := ih hl.2 (fun f hf => hsub f (by simp [hf]))
    refine ⟨if t ≠ t2 then g :: l' else l',
      by simp [filterGo, ht2, hl'], fun f => ?_⟩
    by_cases hfg : f = g
    · subst hfg
      have hnr : List.lookup f rest = none := lookup_eq_none_of_not_mem hl.1
      have hcons : List.lookup f ((f, t) :: rest) = some t := by simp [List.lookup]
      by_cases hne : t = t2
      · subst hne
        rw [if_neg (fun h => h rfl)]
        constructor
        · intro hf
          obtain ⟨t', t2', hlt, _, _⟩ := (hiff f).mp hf
          rw [hnr] at hlt
          exact Option.noConfusion hlt
        · rintro ⟨t', t2', hlt, hrt, hne'⟩
          rw [hcons] at hlt
          injection hlt with h1
          rw [ht2] at hrt
          injection hrt with h2
          subst h1
          subst h2
          exact absurd rfl hne'
      · rw [if_pos hne]
        constructor
        · intro _
          exact ⟨t, t2, hcons, ht2, hne⟩
        · intro _
          exact List.mem_cons_self f l'
    · have hcons : List.lookup f ((g, t) :: rest) = List.lookup f rest := by
        simp [List.lookup, beq_false_of_ne hfg]
      rw [hcons]
      have hif : f ∈ (if t ≠ t2 then g :: l' else l') ↔ f ∈ l' := by
        split <;> simp [hfg]
      rw [hif, hiff f]

/-- Counterexample for C3: remote `{a: T2, b: T1}`, local manifest
`{a: T1, b: T1}`, empty disk.  The target list is `[a, a, b]`: the changed
file `a` also appears in `missing_files` (duplicate), and `b` is a target
although it is neither changed nor remote-but-unrecorded-locally (it is
recorded locally, merely absent from disk). -/
theorem sync_targets_duplicates_counterexample :
    syncTargets [("a", "T2"), ("b", "T1")] (some [("a", "T1"), ("b", "T1")]) []
        = some ["a", "a", "b"] ∧
      ¬ (["a", "a", "b"] : List String).Nodup ∧
      "b" ∈ (["a", "a", "b"] : List String) ∧
      "b" ∉ specChanged [("a", "T2"), ("b", "T1")] [("a", "T1"), ("b", "T1")] ∧
      "b" ∉ specUnrecorded [("a", "T2"), ("b", "T1")] [("a", "T1"), ("b", "T1")] := by
  decide

/-- Claim C3 amended: for every remote listing (dict keys) and local
manifest whose filenames all still exist remotely, the target list built in
`sync_single_dir` is, as a set, the union of the changed files and the
files present remotely but absent from disk (not "unrecorded locally"); as
a list it may contain duplicates, since a changed file that is also absent
from disk is appended twice. -/
theorem sync_targets_characterisation (remote loc : TimestampMap)
    (disk : List String)
    (hl : (loc.map Prod.fst).Nodup)
    (hsub : ∀ f ∈ loc.map Prod.fst, f ∈ remote.map Prod.fst) :
    ∃ ts, syncTargets remote (some loc) disk = some ts ∧
      ∀ f, f ∈ ts ↔ (f ∈ specChanged remote loc ∨
        (f ∈ remote.map Prod.fst ∧ f ∉ disk)) := by
  obtain ⟨l, hfg, hiff⟩ := filterGo_mem_characterisation remote loc hl hsub
  refine ⟨l ++ get_missing_files disk (remote.map Prod.fst), ?_, fun f => ?_⟩
  · show (match filterGo remote loc with
      | none => none
      | some tgts => some (tgts ++ get_missing_files disk (remote.map Prod.fst))) =
        some (l ++ get_missing_files disk (remote.map Prod.fst))
    rw [hfg]
  · have hm : f ∈ get_missing_files disk (remote.map Prod.fst) ↔
        f ∈ remote.map Prod.fst ∧ f ∉ disk := by
      unfold get_missing_files
      rw [List.mem_filter]
      simp
    rw [List.mem_append, hiff f, hm, mem_specChanged_iff]

/-- Witness for the amended C3 at the counterexample's input. -/
theorem sync_targets_characterisation_witness :
    ∃ ts, syncTargets [("a", "T2"), ("b", "T1")]
        (some [("a", "T1"), ("b", "T1")]) [] = some ts ∧
      ∀ f, f ∈ ts ↔ (f ∈ specChanged [("a", "T2"), ("b", "T1")]
            [("a", "T1"), ("b", "T1")] ∨
          (f ∈ ([("a", "T2"), ("b", "T1")] : TimestampMap).map Prod.fst ∧
            f ∉ ([] : List String))) :=
  sync_targets_characterisation [("a", "T2"), ("b", "T1")]
    [("a", "T1"), ("b", "T1")] [] (by decide) (by decide)

theorem filterGo_self_eq_nil (remote : TimestampMap) :
    ∀ loc : TimestampMap, (∀ p ∈ loc, List.lookup p.1 remote = some p.2) →
      filterGo remote loc = some [] := by
  intro loc
  induction loc with
  | nil => exact fun _ => rfl
  | cons p rest ih =>
    intro h
    obtain ⟨f, t⟩ := p
    have hf : List.lookup f remote = some t := h (f, t) (by simp)
    have hrest := ih (fun q hq => h q (by simp [hq]))
    simp [filterGo, hf, hrest]

/-- Claim C6: after a successful pass of `sync_single_dir` for the listing
`remote` (a dict, so its keys are distinct), a second pass with the same
listing computes an empty target list (zero fetches), leaves the directory
state unchanged, and rewrites `ftp_info.tsv` from the same rows, so its
bytes (`manifestTSV`) are unchanged. -/
theorem sync_second_pass_idempotent (remote : TimestampMap) (st st1 : DirState)
    (n : Nat) (hr : (remote.map Prod.fst).Nodup)
    (h : syncAttempt remote st = some (st1, n)) :
    syncAttempt remote st1 = some (st1, 0) ∧
      Option.map manifestTSV st1.manifest = some (manifestTSV remote) := by
  unfold syncAttempt syncTargets at h
  cases hft : filter_files_on_mdtm remote st.manifest with
  | none =>
    rw [hft] at h
    exact absurd h (by simp)
  | some tgts =>
    rw [hft] at h
    simp only [Option.some.injEq, Prod.mk.injEq] at h
    obtain ⟨hst, hn⟩ := h
    subst hst
    refine ⟨?_, rfl⟩
    have hself : filterGo remote remote = some [] :=
      filterGo_self_eq_nil remote remote (fun p hp => by
        obtain ⟨f, t⟩ := p
        exact lookup_of_mem_nodup hr hp)
    have hmiss : get_missing_files
        (downloadTargets st.disk
          (tgts ++ get_missing_files st.disk (remote.map Prod.fst)))
        (remote.map Prod.fst) = [] := by
      apply List.filter_eq_nil_iff.mpr
      intro f hf
      simp only [decide_eq_true_eq, not_not]
      rw [mem_downloadTargets]
      by_cases hd : f ∈ st.disk
      · exact Or.inl hd
      · refine Or.inr (List.mem_append.mpr (Or.inr ?_))
        exact List.mem_filter.mpr ⟨hf, by simpa using hd⟩
    have hdl : ∀ d : List String, downloadTargets d [] = d := fun _ => rfl
    unfold syncAttempt syncTargets
    simp [filter_files_on_mdtm, hself, hmiss, hdl]

/-- Witness for C6: a first sync from empty state fetches the one remote
file twice over (changed plus missing union), a second sync fetches 0. -/
theorem sync_second_pass_idempotent_witness :
    syncAttempt [("a.fna", "20200112235902")]
        ⟨["a.fna"], some [("a.fna", "20200112235902")]⟩ =
      some (⟨["a.fna"], some [("a.fna", "20200112235902")]⟩, 0) ∧
      Option.map manifestTSV
          (DirState.mk ["a.fna"] (some [("a.fna", "20200112235902")])).manifest =
        some (manifestTSV [("a.fna", "20200112235902")]) :=
  sync_second_pass_idempotent [("a.fna", "20200112235902")] ⟨[], none⟩
    ⟨["a.fna"], some [("a.fna", "20200112235902")]⟩ 2 (by decide) (by decide)

theorem releaseLoop_noop (present : String → Bool) (localMd5 : String → String)
    (remoteMd5 : String → Option String) :
    ∀ (files : List String) (cg : Bool),
      (∀ f ∈ files, present f = true) →
      (∀ f ∈ files, remoteMd5 f = some (localMd5 f)) →
      releaseLoop present localMd5 remoteMd5 files cg =
        (files.map ReleaseEvent.fetchMd5, some cg) := by
  intro files
  induction files with
  | nil => exact fun _ _ _ => rfl
  | cons f fs ih =>
    intro cg hpres hmd5
    have h1 : present f = true := hpres f (by simp)
    have h2 : remoteMd5 f = some (localMd5 f) := hmd5 f (by simp)
    have ih' := ih cg (fun g hg => hpres g (by simp [hg]))
      (fun g hg => hmd5 g (by simp [hg]))
    simp [releaseLoop, h1, h2, ih']

/-- Claim C7: when every tracked release file is present locally and its
local md5 equals the freshly fetched remote md5, `check_release_dir`
returns `check_genomes = False`, writes no release file, and still rewrites
the `VERSION` marker to the remote token. -/
theorem release_gate_noop (files : List String) (present : String → Bool)
    (localMd5 : String → String) (remoteMd5 : String → Option String)
    (v : String) (archive : Bool)
    (hpres : ∀ f ∈ files, present f = true)
    (hmd5 : ∀ f ∈ files, remoteMd5 f = some (localMd5 f)) :
    (check_release_dir files present localMd5 remoteMd5 v archive).2 = some false ∧
      (∀ f, ReleaseEvent.writeFile f ∉
        (check_release_dir files present localMd5 remoteMd5 v archive).1) ∧
      ReleaseEvent.writeVersion v ∈
        (check_release_dir files present localMd5 remoteMd5 v archive).1 := by
  have hloop := releaseLoop_noop present localMd5 remoteMd5 files false hpres hmd5
  unfold check_release_dir
  rw [hloop]
  refine ⟨rfl, ?_, ?_⟩
  · intro f
    simp only [List.mem_append, List.mem_cons, List.mem_map]
    rintro (hpre | heq | ⟨g, _, hg⟩)
    · revert hpre
      split <;> simp
    · exact ReleaseEvent.noConfusion heq
    · exact ReleaseEvent.noConfusion hg
  · exact List.mem_append.mpr (Or.inr (List.mem_cons_self _ _))

/-- Witness for C7 at a concrete all-up-to-date release directory. -/
theorem release_gate_noop_witness :
    (check_release_dir ["genome_summary", "genome_metadata"] (fun _ => true)
        (fun _ => "d41d8cd9") (fun _ => some "d41d8cd9") "202110" true).2 =
        some false ∧
      (∀ f, ReleaseEvent.writeFile f ∉
        (check_release_dir ["genome_summary", "genome_metadata"] (fun _ => true)
          (fun _ => "d41d8cd9") (fun _ => some "d41d8cd9") "202110" true).1) ∧
      ReleaseEvent.writeVersion "202110" ∈
        (check_release_dir ["genome_summary", "genome_metadata"] (fun _ => true)
          (fun _ => "d41d8cd9") (fun _ => some "d41d8cd9") "202110" true).1 :=
  release_gate_noop ["genome_summary", "genome_metadata"] (fun _ => true)
    (fun _ => "d41d8cd9") (fun _ => some "d41d8cd9") "202110" true
    (by decide) (by decide)

/-- Counterexample for C10: the first tracked file's checksum differs (it is
rewritten), then the second file's fetch fails with a transport error.  The
trace shows the `VERSION` write and the `writeFile` for the first release
file both happened before the failure, so the release files are not
unchanged on a transport-failing evaluation. -/
theorem release_error_after_write_counterexample :
    check_release_dir ["genome_summary", "genome_metadata"] (fun _ => true)
        (fun _ => "aaaa")
        (fun f => if f = "genome_summary" then some "bbbb" else none)
        "202110" false =
      ([.writeVersion "202110", .fetchMd5 "genome_summary",
        .writeFile "genome_summary", .fetchMd5 "genome_metadata", .ftpError],
        none) ∧
      ReleaseEvent.writeFile "genome_summary" ∈
        (check_release_dir ["genome_summary", "genome_metadata"] (fun _ => true)
          (fun _ => "aaaa")
          (fun f => if f = "genome_summary" then some "bbbb" else none)
          "202110" false).1 := by decide

/-- Claim C10 amended: `check_release_dir` writes the `VERSION` marker
before fetching or comparing any release-file checksum and before writing
any release file, so on an evaluation that fails with a transport error the
marker has already been advanced to the remote token; but release files
whose checksums mismatched earlier in the same evaluation have already been
rewritten, so the release files are not in general unchanged. -/
theorem version_written_before_checksum_phase (files : List String)
    (present : String → Bool) (localMd5 : String → String)
    (remoteMd5 : String → Option String) (v : String) (archive : Bool) :
    ∃ l1 l2, (check_release_dir files present localMd5 remoteMd5 v archive).1 =
        l1 ++ ReleaseEvent.writeVersion v :: l2 ∧
      (∀ f, ReleaseEvent.fetchMd5 f ∉ l1) ∧
      (∀ f, ReleaseEvent.writeFile f ∉ l1) := by
  refine ⟨(if archive && files.any (fun f => present f) then
      [ReleaseEvent.archiveNotes] else []),
    (releaseLoop present localMd5 remoteMd5 files false).1, rfl, ?_, ?_⟩ <;>
    intro f <;> split <;> simp

/-- Witness for the amended C10 at a concrete failing evaluation. -/
theorem version_written_before_checksum_phase_witness :
    ∃ l1 l2, (check_release_dir ["genome_summary"] (fun _ => true)
        (fun _ => "aaaa") (fun _ => none) "202110" true).1 =
        l1 ++ ReleaseEvent.writeVersion "202110" :: l2 ∧
      (∀ f, ReleaseEvent.fetchMd5 f ∉ l1) ∧
      (∀ f, ReleaseEvent.writeFile f ∉ l1) :=
  version_written_before_checksum_phase ["genome_summary"] (fun _ => true)
    (fun _ => "aaaa") (fun _ => none) "202110" true
